import Mathlib

/-!
Verification development for the minimega Python bindings
(src/misc/python/minimega.py) and their generator (src/misc/python/genapi.py).

Python strings are modelled as lists of Unicode code points (List Char).
Python exceptions are modelled by the PyErr type; `Except PyErr` models a
computation that may raise.  The Python standard-library pieces the bindings
call (json.loads / json.dumps, the re module, str.split, str.splitlines,
os.path.join) are modelled by executable Lean functions restricted to the
behaviour the bindings exercise.
-/

/-- JSON values, as produced by Python's json module: objects keep their
key order (Python dicts preserve insertion order). -/
inductive Json where
  | null
  | bool (b : Bool)
  | num (n : Int)
  | str (s : List Char)
  | arr (elems : List Json)
  | obj (fields : List (List Char × Json))

/-- Python exception values as far as the bindings distinguish them.
`mmError v` is the module's own `Error(v)` class (minimega.py line 28);
the remaining constructors are the Python built-in exception classes that
the modelled code can raise. -/
inductive PyErr where
  | mmError (arg : Json)
  | typeError
  | keyError
  | indexError
  | valueError
  | recursionError

/-- Whitespace as matched by Python's str.split and the re module class \s
(ASCII range). -/
def isSpace (c : Char) : Bool :=
  c = ' ' || c = '\t' || c = '\n' || c = '\r' || c = '\x0b' || c = '\x0c'

/-- ASCII decimal digit, re module class \d. -/
def isDigit (c : Char) : Bool :=
  '0' ≤ c && c ≤ '9'

/-- Python str.isalpha restricted to ASCII letters (the command words fed to
genapi are ASCII). -/
def pyIsAlpha (c : Char) : Bool :=
  ('a' ≤ c && c ≤ 'z') || ('A' ≤ c && c ≤ 'Z')

/-- Python str.split() with no argument: split on runs of whitespace,
discarding leading and trailing whitespace. -/
def pySplitAux : List Char → List Char → List (List Char)
  | [], acc => if acc.isEmpty then [] else [acc.reverse]
  | c :: rest, acc =>
    if isSpace c then
      if acc.isEmpty then pySplitAux rest [] else acc.reverse :: pySplitAux rest []
    else pySplitAux rest (c :: acc)

/-- Python str.split() with no argument. -/
def pySplit (s : List Char) : List (List Char) := pySplitAux s []

/-- Python str.splitlines() for newline-separated text (the file listing
payload uses plain newlines). -/
def splitlines : List Char → List (List Char)
  | [] => []
  | '\n' :: rest => [] :: splitlines rest
  | c :: rest =>
    match splitlines rest with
    | [] => [[c]]
    | l :: ls => (c :: l) :: ls

/-- Value of a nonempty ASCII digit string. -/
def digitsToNat (ds : List Char) : Nat :=
  ds.foldl (fun a c => a * 10 + (c.toNat - 48)) 0

/-- Ordered-dictionary lookup on an association list keyed by strings
(first match; our dictionaries never hold duplicate keys because insertion
goes through setAssoc). -/
def lookupAssoc {β : Type} : List (List Char × β) → List Char → Option β
  | [], _ => none
  | (k, v) :: rest, key => if k = key then some v else lookupAssoc rest key

/-- Python dict item assignment: overwrite in place if the key exists
(keeping its position), otherwise append, as insertion-ordered dicts do. -/
def setAssoc {β : Type} : List (List Char × β) → List Char → β → List (List Char × β)
  | [], key, v => [(key, v)]
  | (k, w) :: rest, key, v =>
    if k = key then (key, v) :: rest else (k, w) :: setAssoc rest key v

/-- os.path.join for the paths the FileStore builds (cwd is always either
"/" or a previously joined path; names never start with a slash). -/
def pathJoin (a b : List Char) : List Char :=
  if a.isEmpty then b
  else if a.getLast? = some '/' then a ++ b
  else a ++ '/' :: b

/-- The left brace character (written numerically throughout this file). -/
def lbrace : Char := Char.ofNat 123

/-- The right brace character. -/
def rbrace : Char := Char.ofNat 125

/-- JSON insignificant whitespace, as skipped by Python json.loads. -/
def jSkipWs (s : List Char) : List Char :=
  s.dropWhile (fun c => c = ' ' || c = '\t' || c = '\n' || c = '\r')

/-- Scan a JSON string body after the opening quote: the content up to the
closing quote and the remainder after it.  Escape sequences are not needed
by any input in this development and are rejected, which only makes this
model stricter than json.loads on inputs we never use. -/
def scanStrBody (s : List Char) : Option (List Char × List Char) :=
  let content := s.takeWhile (fun c => c ≠ '"' && c ≠ '\\')
  match s.dropWhile (fun c => c ≠ '"' && c ≠ '\\') with
  | '"' :: r => some (content, r)
  | _ => none

/-- Scan a JSON integer (optional minus sign, then digits). -/
def scanNum (s : List Char) : Option (Json × List Char) :=
  match s with
  | '-' :: r =>
    let ds := r.takeWhile isDigit
    if ds.isEmpty then none
    else some (Json.num (-(digitsToNat ds : Int)), r.dropWhile isDigit)
  | _ =>
    let ds := s.takeWhile isDigit
    if ds.isEmpty then none
    else some (Json.num (digitsToNat ds : Int), s.dropWhile isDigit)

/-- Parser mode: a whole value, the elements of an array after the opening
bracket, or the fields of an object after the opening brace. -/
inductive PMode where
  | val
  | elems (acc : List Json)
  | fields (acc : List (List Char × Json))

/-- Fuel-indexed recursive-descent parser for the JSON subset the wire
protocol uses (strings, integers, booleans, null, arrays, objects).
Models Python json.loads on such documents: in particular it fails on any
proper prefix of a document, which is what the receive loop relies on. -/
def parseJ : Nat → PMode → List Char → Option (Json × List Char)
  | 0, _, _ => none
  | f + 1, PMode.val, s =>
    match jSkipWs s with
    | [] => none
    | c :: rest =>
      if c = '"' then
        (scanStrBody rest).map (fun p => (Json.str p.1, p.2))
      else if c = '[' then
        match jSkipWs rest with
        | ']' :: r2 => some (Json.arr [], r2)
        | _ => parseJ f (PMode.elems []) rest
      else if c = lbrace then
        match jSkipWs rest with
        | [] => none
        | x :: r2 => if x = rbrace then some (Json.obj [], r2) else parseJ f (PMode.fields []) rest
      else if (c :: rest).take 4 = "true".toList then some (Json.bool true, (c :: rest).drop 4)
      else if (c :: rest).take 5 = "false".toList then some (Json.bool false, (c :: rest).drop 5)
      else if (c :: rest).take 4 = "null".toList then some (Json.null, (c :: rest).drop 4)
      else scanNum (c :: rest)
  | f + 1, PMode.elems acc, s =>
    match parseJ f PMode.val s with
    | none => none
    | some (v, r) =>
      match jSkipWs r with
      | ',' :: r2 => parseJ f (PMode.elems (acc ++ [v])) r2
      | ']' :: r2 => some (Json.arr (acc ++ [v]), r2)
      | _ => none
  | f + 1, PMode.fields acc, s =>
    match jSkipWs s with
    | c :: r =>
      if c = '"' then
        match scanStrBody r with
        | some (k, r2) =>
          match jSkipWs r2 with
          | ':' :: r3 =>
            match parseJ f PMode.val r3 with
            | some (v, r4) =>
              match jSkipWs r4 with
              | ',' :: r5 => parseJ f (PMode.fields (setAssoc acc k v)) r5
              | x :: r5 => if x = rbrace then some (Json.obj (setAssoc acc k v), r5) else none
              | [] => none
            | none => none
          | _ => none
        | none => none
      else none
    | [] => none

/-- Model of Python json.loads restricted to the protocol's JSON subset:
parse one document, allow surrounding whitespace, and require the entire
input to be consumed. -/
def loads (s : List Char) : Option Json :=
  match parseJ (2 * s.length + 3) PMode.val s with
  | some (v, rest) => if (jSkipWs rest).isEmpty then some v else none
  | none => none

/-- The receive loop of minimega._send (minimega.py lines 161-171): the
socket is modelled as the list of chunks successive recv calls return, an
exhausted list (or an explicit empty chunk) meaning the peer closed the
socket.  Each chunk is appended to the accumulated buffer and the entire
buffer is re-parsed; a failed parse is silently swallowed (the except
branch only reads the next chunk).  Returns the final buffer and the
parsed response, if any. -/
def receiveLoop (parse : List Char → Option Json) :
    List (List Char) → List Char → List Char × Option Json
  | [], msg => (msg, none)
  | c :: rest, msg =>
    if c.isEmpty then (msg, none)
    else
      let msg2 := msg ++ c
      match parse msg2 with
      | some v => (msg2, some v)
      | none => receiveLoop parse rest msg2

/-- The message of the Error raised when recv returns no data at all. -/
def socketClosedMsg : List Char := "Expected response, socket closed".toList

/-- Python subscripting `v[key]` for a string key: dict lookup with KeyError
when absent; every non-dict value (including None, lists, strings and
numbers) raises TypeError. -/
def subscript (v : Json) (key : List Char) : Except PyErr Json :=
  match v with
  | Json.obj fields =>
    match lookupAssoc fields key with
    | some x => Except.ok x
    | none => Except.error PyErr.keyError
  | _ => Except.error PyErr.typeError

/-- Python truthiness of a decoded JSON value. -/
def truthy : Json → Bool
  | Json.null => false
  | Json.bool b => b
  | Json.num n => n ≠ 0
  | Json.str s => !s.isEmpty
  | Json.arr xs => !xs.isEmpty
  | Json.obj fs => !fs.isEmpty

/-- The key of the error field of a response. -/
def errorKey : List Char := "Error".toList

/-- The key of the payload field of a response. -/
def responseKey : List Char := "Response".toList

/-- Lines 173-179 of minimega.py, after the receive loop has finished with
buffer `msg` and parse result `response`: raise Error("Expected response,
socket closed") only when the buffer is empty, then evaluate
response["Error"] (a subscript of None when nothing parsed), raise
Error(response["Error"]) if that field is truthy, and otherwise return
response["Response"]. -/
def handleParsed (msg : List Char) (response : Option Json) : Except PyErr Json :=
  if msg.isEmpty then Except.error (PyErr.mmError (Json.str socketClosedMsg))
  else
    match response with
    | none => Except.error PyErr.typeError
    | some r =>
      match subscript r errorKey with
      | Except.error e => Except.error e
      | Except.ok ev =>
        if truthy ev then Except.error (PyErr.mmError ev)
        else subscript r responseKey

/-- The receive half of minimega._send: run the receive loop on the chunks
the socket delivers, then post-process the result. -/
def receive (parse : List Char → Option Json) (chunks : List (List Char)) : Except PyErr Json :=
  let p := receiveLoop parse chunks []
  handleParsed p.1 p.2

/-- Lowercase hexadecimal digit, as used by json.dumps \uXXXX escapes. -/
def hexDigit (n : Nat) : Char := "0123456789abcdef".toList.getD n '0'

/-- Four lowercase hex digits of a value below 0x10000. -/
def hex4 (n : Nat) : List Char :=
  [hexDigit (n / 4096 % 16), hexDigit (n / 256 % 16), hexDigit (n / 16 % 16), hexDigit (n % 16)]

/-- How json.dumps with its default ensure_ascii=True renders one character
of a string: quote and backslash get a backslash escape, the common control
characters get their short escapes, printable ASCII (0x20..0x7e) passes
through, and everything else becomes \uXXXX (a surrogate pair above
0xFFFF). -/
def escAscii (c : Char) : List Char :=
  if c = '"' then ['\\', '"']
  else if c = '\\' then ['\\', '\\']
  else if c = '\n' then ['\\', 'n']
  else if c = '\r' then ['\\', 'r']
  else if c = '\t' then ['\\', 't']
  else if c.toNat = 8 then ['\\', 'b']
  else if c.toNat = 12 then ['\\', 'f']
  else if 32 ≤ c.toNat && c.toNat ≤ 126 then [c]
  else if c.toNat < 65536 then '\\' :: 'u' :: hex4 c.toNat
  else
    ('\\' :: 'u' :: hex4 (55296 + (c.toNat - 65536) / 1024))
      ++ ('\\' :: 'u' :: hex4 (56320 + (c.toNat - 65536) % 1024))

/-- json.dumps of one string value. -/
def encodeStr (s : List Char) : List Char :=
  '"' :: (s.map escAscii).flatten ++ ['"']

/-- Comma-join of already encoded items (the "," item separator passed to
json.dumps in minimega._send). -/
def joinComma : List (List Char) → List Char
  | [] => []
  | [x] => x
  | x :: y :: rest => x ++ ',' :: joinComma (y :: rest)

/-- json.dumps({'Command': cmd, 'Args': args}, separators=(',', ':')) as
executed on minimega.py line 156: one compact JSON object, keys in dict
insertion order, ensure_ascii escaping. -/
def dumps (cmd : List Char) (args : List (List Char)) : List Char :=
  lbrace :: "\"Command\":".toList ++ encodeStr cmd
    ++ ",\"Args\":[".toList ++ joinComma (args.map encodeStr) ++ (']' :: [rbrace])

/-- UTF-8 byte count of one code point (what str.encode contributes per
character). -/
def utf8Len (c : Char) : Nat :=
  if c.toNat < 128 then 1 else if c.toNat < 2048 then 2
  else if c.toNat < 65536 then 3 else 4

/-- UTF-8 byte count of a string, the length of msg.encode('utf-8'). -/
def utf8Size (s : List Char) : Nat := (s.map utf8Len).sum

/-- The message of the Error raised on a short write. -/
def failWriteMsg : List Char := "failed to write message to minimega".toList

/-- The send half of minimega._send (minimega.py lines 155-159): encode the
command as one compact JSON object, write it with a single socket.send call
(whose byte count is `bytesWritten`), and raise Error('failed to write
message to minimega') when len(msg) — the number of characters of the
unencoded text — differs from the byte count the socket reports. -/
def sendCheck (cmd : List Char) (args : List (List Char)) (bytesWritten : Nat) :
    Except PyErr Unit :=
  if (dumps cmd args).length ≠ bytesWritten then
    Except.error (PyErr.mmError (Json.str failWriteMsg))
  else Except.ok ()

/-- The CMD_TYPES table of genapi.py lines 28-35, in the dict insertion
order parseCmdType iterates it in. -/
def CMD_TYPES : List (String × Nat) :=
  [("optionalItem", 1), ("literalItem", 2), ("commandItem", 4),
   ("stringItem", 8), ("choiceItem", 16), ("listItem", 32)]

/-- The `for name, value in CMD_TYPES.items()` scan of parseCmdType: the
first entry whose bit is set in the mask. -/
def firstType : List (String × Nat) → Nat → Option String
  | [], _ => none
  | (nm, v) :: rest, t => if t &&& v ≠ 0 then some nm else firstType rest t

/-- genapi.parseCmdType (genapi.py lines 49-62): zero out the optional bit
(and, through the 32-bit constant, any bit at position 32 and above), scan
CMD_TYPES in declared order, return the first name whose bit is set, and
raise ValueError('Unknown command type', type) when none is. -/
def parseCmdType (t : Nat) : Except PyErr String :=
  let t2 := t &&& 0xfffffffe
  match firstType CMD_TYPES t2 with
  | some nm => Except.ok nm
  | none => Except.error PyErr.valueError

/-- The 'type' entry of one argument dict of the daemon grammar: an integer
bitmask as received from the daemon, or the kind-name string parseArgs
overwrites it with. -/
inductive TypeField where
  | bits (n : Nat)
  | name (k : String)
deriving DecidableEq

/-- One argument dict of a parsed pattern: the 'type' entry, and the
'optional' entry, absent (none) until parseArgs adds it.  Other
daemon-supplied entries of the dict are not touched by the modelled code
and are omitted. -/
structure ArgSlot where
  type : TypeField
  optional : Option Bool
deriving DecidableEq

/-- The per-argument body of genapi.parseArgs (lines 69-73): arg.update
replaces the 'type' entry with the classified kind name and adds the
'optional' flag computed from the optional bit of the original bitmask.
A slot whose 'type' is already a string would make the bit test a Python
TypeError. -/
def parseArg (a : ArgSlot) : Except PyErr ArgSlot :=
  match a.type with
  | TypeField.bits n =>
    match parseCmdType n with
    | Except.ok k => Except.ok { type := TypeField.name k, optional := some (n &&& 1 ≠ 0 : Bool) }
    | Except.error e => Except.error e
  | TypeField.name _ => Except.error PyErr.typeError

/-- genapi.parseArgs (lines 65-74): update every slot of the list in place
and return the same list. -/
def parseArgs (args : List ArgSlot) : Except PyErr (List ArgSlot) :=
  args.mapM parseArg

/-- One command descriptor from the daemon grammar dump: the shared_prefix
string, the parsed_patterns lists of argument dicts, and the 'candidates'
entry buildCommand adds (absent, i.e. none, as received).  The remaining
daemon metadata is never touched by the modelled code.  The shared_prefix
field is called spfx here only because of naming constraints of this
development. -/
structure Cmd where
  spfx : List Char
  parsed_patterns : List (List ArgSlot)
  candidates : Option (List (List ArgSlot))
deriving DecidableEq

/-- A node of the generator's command tree: a dict that may carry the
fields of a command descriptor (when a descriptor was stored at this name)
and may carry a 'subcommands' dict (added when the node routes to deeper
commands).  This mirrors genapi's use of one dict for both roles. -/
inductive Node where
  | mk : Option Cmd → Option (List (List Char × Node)) → Node

/-- The descriptor stored at a node, if any. -/
def Node.cmdOf : Node → Option Cmd
  | Node.mk c _ => c

/-- The 'subcommands' dict of a node, if present. -/
def Node.subsOf : Node → Option (List (List Char × Node))
  | Node.mk _ s => s

/-- genapi line 86: a command word sanitized to a Python identifier by
keeping only alphabetic characters. -/
def sanitize (w : List Char) : List Char := w.filter pyIsAlpha

/-- genapi.buildCommand (lines 77-101), written functionally: the mutated
context dict is returned.  The leaf branch stores the descriptor and then
sets its 'candidates' entry to the patterns with the shared-prefix slots
stripped and classified; because Python list slicing copies the list but
not the dicts inside it, parseArgs also rewrites the slots of the stored
descriptor's parsed_patterns beyond the prefix, which the returned
descriptor value reflects.  A call with an empty subs list is the
`subs[0]` IndexError of line 85. -/
def buildCommand : List (List Char × Node) → List (List Char) → Cmd →
    Except PyErr (List (List Char × Node))
  | _, [], _ => Except.error PyErr.indexError
  | context, s0 :: srest, cmd =>
    let cmdName := sanitize s0
    match lookupAssoc context cmdName with
    | some node =>
      match buildCommand (node.subsOf.getD []) srest cmd with
      | Except.error e => Except.error e
      | Except.ok sub2 => Except.ok (setAssoc context cmdName (Node.mk node.cmdOf (some sub2)))
    | none =>
      if srest.isEmpty then
        let plen := (pySplit cmd.spfx).length
        match (cmd.parsed_patterns.map (fun p => p.drop plen)).mapM parseArgs with
        | Except.error e => Except.error e
        | Except.ok cands =>
          let cmd2 : Cmd :=
            { spfx := cmd.spfx,
              parsed_patterns :=
                (cmd.parsed_patterns.zip cands).map (fun pc => pc.1.take plen ++ pc.2),
              candidates := some cands }
          Except.ok (setAssoc context cmdName (Node.mk (some cmd2) none))
      else
        match buildCommand [] srest cmd with
        | Except.error e => Except.error e
        | Except.ok sub2 => Except.ok (setAssoc context cmdName (Node.mk none (some sub2)))

/-- genapi CMD_BLACKLIST (lines 36-41). -/
def CMD_BLACKLIST : List (List Char) := ["help".toList]

/-- Python str.startswith('.') on a command string. -/
def startsWithDot (s : List Char) : Bool :=
  match s with
  | c :: _ => c = '.'
  | [] => false

/-- The tree-building loop of genapi.render (lines 110-117): skip
cli-internal and blacklisted commands, and feed every other descriptor to
buildCommand under its whitespace-split shared prefix.  The jinja template
expansion that follows is rendering plumbing and is not modelled. -/
def renderCmds (cmds : List Cmd) : Except PyErr (List (List Char × Node)) :=
  cmds.foldlM
    (fun ctx c =>
      if startsWithDot c.spfx || CMD_BLACKLIST.contains c.spfx then Except.ok ctx
      else buildCommand ctx (pySplit c.spfx) c)
    []

/-- A full sanitized token path already present in a context: every token
in turn is found by lookup, descending through the 'subcommands' dicts
(an absent dict acting as the empty dict, exactly as buildCommand's
`.getD []` branch reads it). -/
def hasPath : List (List Char × Node) → List (List Char) → Bool
  | _, [] => false
  | ctx, s0 :: srest =>
    match lookupAssoc ctx (sanitize s0) with
    | none => false
    | some node => srest.isEmpty || hasPath (node.subsOf.getD []) srest

/-- Parse the tail `\s+\d+$` of FILE_RE exactly: one or more whitespace
characters followed by one or more digits reaching the end of the line.
Because \d cannot match whitespace, only the maximal whitespace run can
begin the digits, so no backtracking is needed here. -/
def wsDigits (t : List Char) : Option Nat :=
  let w := t.takeWhile isSpace
  let d := t.dropWhile isSpace
  if w.isEmpty then none
  else if d.isEmpty then none
  else if d.all isDigit then some (digitsToNat d) else none

/-- The lazy `(?P<name>.*?)` group of FILE_RE: the shortest leading slice
after which the rest of the line matches `\s+\d+$`; returns that name and
the size value. -/
def searchName : List Char → Option (List Char × Nat)
  | [] => none
  | c :: rest =>
    match wsDigits (c :: rest) with
    | some n => some ([], n)
    | none => (searchName rest).map (fun p => (c :: p.1, p.2))

/-- Backtracking over the greedy leading `\s+` of FILE_RE's second
alternative: try consuming w leading whitespace characters for
w = k, k-1, ..., 1. -/
def tryLeadingWs (line : List Char) : Nat → Option (List Char × Nat)
  | 0 => none
  | w + 1 =>
    match searchName (line.drop (w + 1)) with
    | some r => some r
    | none => tryLeadingWs line w

/-- The directory marker alternative of FILE_RE. -/
def dirMarker : List Char := "<dir> ".toList

/-- FILE_RE.match (minimega.py line 32):
`^(?:(?P<dir><dir> )|\s+)(?P<name>.*?)\s+(?P<size>\d+)$`.
Either the literal "<dir> " marker or at least one whitespace character
must match at the start of the line; then the lazy name and the trailing
size.  Returns (dir-marker present, name, size). -/
def fileReMatch (line : List Char) : Option (Bool × List Char × Nat) :=
  if dirMarker.isPrefixOf line then
    (searchName (line.drop 6)).map (fun p => (true, p.1, p.2))
  else
    let k := (line.takeWhile isSpace).length
    if k = 0 then none
    else (tryLeadingWs line k).map (fun p => (false, p.1, p.2))

/-- One entry of the FileStore dict: a plain file's integer size, or a
nested FileStore built for a subdirectory. -/
inductive FSEntry where
  | size : Nat → FSEntry
  | dir : List (List Char × FSEntry) → FSEntry

/-- The message prefix of the Error raised on an unparsable listing line. -/
def parseFailMsg : List Char := "Failure parsing file listing in ".toList

/-- FileStore.list on a freshly cleared store (minimega.py lines 81-100).
`oracle cwd` is the daemon's reply to _send('file', 'list', cwd) — either
the listing text of that directory or a raised error.  The result is the
dict contents when the method finishes together with the exception that
aborted it, if any: entries set before a bad line survive in the store,
exactly as in the Python loop, while a nested store whose construction
raised is discarded with the exception.  The fuel bounds the recursion
into subdirectories, standing in for Python's recursion limit. -/
def fsList (oracle : List Char → Except PyErr (List Char)) :
    Nat → List Char → List (List Char × FSEntry) × Option PyErr
  | 0, _ => ([], some PyErr.recursionError)
  | fuel + 1, cwd =>
    match oracle cwd with
    | Except.error e => ([], some e)
    | Except.ok text =>
      (splitlines text).foldl
        (fun st line =>
          match st with
          | (acc, some e) => (acc, some e)
          | (acc, none) =>
            match fileReMatch line with
            | none => (acc, some (PyErr.mmError (Json.str (parseFailMsg ++ cwd))))
            | some t =>
              if t.1 then
                match fsList oracle fuel (pathJoin cwd t.2.1) with
                | (_, some e) => (acc, some e)
                | (sub, none) => (setAssoc acc t.2.1 (FSEntry.dir sub), none)
              else (setAssoc acc t.2.1 (FSEntry.size t.2.2), none))
        ([], none)

/-- The body of the listing loop of fsList over one line, exposed as a
named function so theorems can speak about a single loop step. -/
def fsStep (oracle : List Char → Except PyErr (List Char)) (fuel : Nat) (cwd : List Char)
    (st : List (List Char × FSEntry) × Option PyErr) (line : List Char) :
    List (List Char × FSEntry) × Option PyErr :=
  match st with
  | (acc, some e) => (acc, some e)
  | (acc, none) =>
    match fileReMatch line with
    | none => (acc, some (PyErr.mmError (Json.str (parseFailMsg ++ cwd))))
    | some t =>
      if t.1 then
        match fsList oracle fuel (pathJoin cwd t.2.1) with
        | (_, some e) => (acc, some e)
        | (sub, none) => (setAssoc acc t.2.1 (FSEntry.dir sub), none)
      else (setAssoc acc t.2.1 (FSEntry.size t.2.2), none)

/-- The path of the root directory FileStore.__init__ defaults to. -/
def rootPath : List Char := "/".toList

/-- minimega.__init__ (lines 137-145) after the socket is connected: build
the files attribute with FileStore(self), whose constructor immediately
lists the root directory; an exception from that exchange propagates out
of the constructor, so no client object is produced. -/
def mmInit (oracle : List Char → Except PyErr (List Char)) (fuel : Nat) :
    Except PyErr (List (List Char × FSEntry)) :=
  match fsList oracle fuel rootPath with
  | (_, some e) => Except.error e
  | (es, none) => Except.ok es

theorem receiveLoop_accum (parse : List Char → Option Json) :
    ∀ (cs : List (List Char)) (rest : List (List Char)) (pre : List Char) (v : Json),
      (∀ c ∈ cs, c ≠ []) → cs ≠ [] →
      (∀ i, 0 < i → i < cs.length → parse (pre ++ (cs.take i).flatten) = none) →
      parse (pre ++ cs.flatten) = some v →
      receiveLoop parse (cs ++ rest) pre = (pre ++ cs.flatten, some v) := by
  intro cs
  induction cs with
  | nil => intro rest pre v _ h0 _ _; exact absurd rfl h0
  | cons c cs ih =>
    intro rest pre v hne h0 hfail hsucc
    have hc : c.isEmpty = false := by
      cases c with
      | nil => exact absurd rfl (hne [] (by simp))
      | cons a l => rfl
    cases cs with
    | nil =>
      have hs : parse (pre ++ c) = some v := by
        simpa using hsucc
      simp [receiveLoop, hc, hs]
    | cons c2 cs2 =>
      have hf1 : parse (pre ++ c) = none := by
        have := hfail 1 (by omega) (by simp)
        simpa using this
      have step : receiveLoop parse ((c :: c2 :: cs2) ++ rest) pre =
          receiveLoop parse ((c2 :: cs2) ++ rest) (pre ++ c) := by
        simp [receiveLoop, hc, hf1]
      rw [step]
      have hres := ih rest (pre ++ c) v
        (fun x hx => hne x (by simp [hx]))
        (by simp)
        (fun i h1 h2 => by
          have := hfail (i + 1) (by omega) (by simpa using Nat.succ_lt_succ h2)
          simpa [List.append_assoc] using this)
        (by simpa [List.append_assoc] using hsucc)
      rw [hres]
      simp [List.append_assoc]

/-- C1: when a response is split across several socket chunks, the receive
loop of minimega._send appends each newly read chunk to the accumulated
buffer, re-parses the whole buffer after each chunk, silently swallows the
intermediate parse failures, and returns the parsed value as soon as the
whole buffer parses — leaving any later chunks unread. -/
theorem receiveLoop_parses_accumulated_buffer (parse : List Char → Option Json)
    (cs rest : List (List Char)) (v : Json)
    (hne : ∀ c ∈ cs, c ≠ []) (h0 : cs ≠ [])
    (hfail : ∀ i, 0 < i → i < cs.length → parse (cs.take i).flatten = none)
    (hsucc : parse cs.flatten = some v) :
    receiveLoop parse (cs ++ rest) [] = (cs.flatten, some v) := by
  have h := receiveLoop_accum parse cs rest [] v hne h0
    (fun i h1 h2 => by simpa using hfail i h1 h2) (by simpa using hsucc)
  simpa using h

/-- C1 witness: a reply split into the three chunks `["ab",`, `"cd` and
`"]`, each individually invalid JSON, parses once all three are buffered. -/
theorem receiveLoop_parses_accumulated_buffer_witness :
    receiveLoop loads ["[\"ab\",".toList, "\"cd".toList, "\"]".toList] [] =
      ("[\"ab\",\"cd\"]".toList, some (Json.arr [Json.str "ab".toList, Json.str "cd".toList])) := by
  have h := receiveLoop_parses_accumulated_buffer loads
    ["[\"ab\",".toList, "\"cd".toList, "\"]".toList] []
    (Json.arr [Json.str "ab".toList, Json.str "cd".toList])
    (by decide) (by decide)
    (by
      intro i h1 h2
      have h3 : i < 3 := by simpa using h2
      interval_cases i <;> rfl)
    (by rfl)
  rw [List.append_nil] at h
  exact h

/-- C2 (code bug): if the peer sends the partial prefix "[" of a response
and then closes the socket, minimega._send does not raise
Error("Expected response, socket closed") — the `if not msg` guard sees a
nonempty buffer — and instead evaluates response["Error"] with response
still None, a Python TypeError; only the close-with-no-data case raises
the intended error. -/
theorem receive_partial_close_typeerror :
    receive loads ["[".toList] = Except.error PyErr.typeError
    ∧ receive loads [] = Except.error (PyErr.mmError (Json.str socketClosedMsg))
    ∧ (Except.error PyErr.typeError : Except PyErr Json)
        ≠ Except.error (PyErr.mmError (Json.str socketClosedMsg)) := by
  refine ⟨rfl, rfl, ?_⟩
  intro h
  injection h with h2
  cases h2

theorem hexDigit_ascii (n : Nat) : (hexDigit n).toNat < 128 := by
  unfold hexDigit
  rcases Nat.lt_or_ge n 16 with h | h
  · interval_cases n <;> decide
  · rw [List.getD_eq_default]
    · decide
    · simpa using h

theorem mem_hex4_ascii (m : Nat) (x : Char) (hx : x ∈ hex4 m) : x.toNat < 128 := by
  simp [hex4] at hx
  rcases hx with h | h | h | h <;> (subst h; exact hexDigit_ascii _)

theorem escAscii_ascii (c : Char) : ∀ x ∈ escAscii c, x.toNat < 128 := by
  intro x hx
  unfold escAscii at hx
  by_cases h1 : c = '"'
  · rw [if_pos h1] at hx; simp at hx; rcases hx with rfl | rfl <;> decide
  rw [if_neg h1] at hx
  by_cases h2 : c = '\\'
  · rw [if_pos h2] at hx; simp at hx; subst hx; decide
  rw [if_neg h2] at hx
  by_cases h3 : c = '\n'
  · rw [if_pos h3] at hx; simp at hx; rcases hx with rfl | rfl <;> decide
  rw [if_neg h3] at hx
  by_cases h4 : c = '\r'
  · rw [if_pos h4] at hx; simp at hx; rcases hx with rfl | rfl <;> decide
  rw [if_neg h4] at hx
  by_cases h5 : c = '\t'
  · rw [if_pos h5] at hx; simp at hx; rcases hx with rfl | rfl <;> decide
  rw [if_neg h5] at hx
  by_cases h6 : c.toNat = 8
  · rw [if_pos h6] at hx; simp at hx; rcases hx with rfl | rfl <;> decide
  rw [if_neg h6] at hx
  by_cases h7 : c.toNat = 12
  · rw [if_pos h7] at hx; simp at hx; rcases hx with rfl | rfl <;> decide
  rw [if_neg h7] at hx
  by_cases h8 : (32 ≤ c.toNat && c.toNat ≤ 126) = true
  · rw [if_pos h8] at hx
    simp at hx
    subst hx
    simp only [Bool.and_eq_true, decide_eq_true_eq] at h8
    omega
  rw [if_neg h8] at hx
  by_cases h9 : c.toNat < 65536
  · rw [if_pos h9] at hx
    simp at hx
    rcases hx with rfl | rfl | hx
    · decide
    · decide
    · exact mem_hex4_ascii _ _ hx
  rw [if_neg h9] at hx
  simp only [List.mem_append, List.mem_cons, List.not_mem_nil, or_false] at hx
  rcases hx with (rfl | rfl | hx) | (rfl | rfl | hx)
  · decide
  · decide
  · exact mem_hex4_ascii _ _ hx
  · decide
  · decide
  · exact mem_hex4_ascii _ _ hx

theorem ascii_of_all (l : List Char) (hall : l.all (fun c => decide (c.toNat < 128)) = true) :
    ∀ x ∈ l, x.toNat < 128 := by
  intro x hx
  have := List.all_eq_true.mp hall x hx
  simpa using this

theorem encodeStr_ascii (s : List Char) : ∀ x ∈ encodeStr s, x.toNat < 128 := by
  intro x hx
  simp [encodeStr] at hx
  rcases hx with h | h | h
  · subst h; decide
  · rcases h with ⟨a, _, hxa⟩
    exact escAscii_ascii a x hxa
  · subst h; decide

theorem mem_joinComma (ls : List (List Char)) (x : Char) (hx : x ∈ joinComma ls) :
    x = ',' ∨ ∃ l ∈ ls, x ∈ l := by
  induction ls with
  | nil => simp [joinComma] at hx
  | cons a ls ih =>
    cases ls with
    | nil =>
      simp [joinComma] at hx
      exact Or.inr ⟨a, by simp, hx⟩
    | cons b ls2 =>
      simp only [joinComma, List.mem_append, List.mem_cons] at hx
      rcases hx with h | h | h
      · exact Or.inr ⟨a, by simp, h⟩
      · exact Or.inl h
      · rcases ih h with h2 | ⟨l, hl, hxl⟩
        · exact Or.inl h2
        · exact Or.inr ⟨l, by simp [hl], hxl⟩

theorem dumps_ascii (cmd : List Char) (args : List (List Char)) :
    ∀ x ∈ dumps cmd args, x.toNat < 128 := by
  intro x hx
  simp only [dumps, List.mem_cons, List.mem_append, List.not_mem_nil, or_false] at hx
  rcases hx with ((((h | h) | h) | h) | h) | h | h
  · subst h; decide
  · exact ascii_of_all "\"Command\":".toList (by decide) x h
  · exact encodeStr_ascii cmd x h
  · exact ascii_of_all ",\"Args\":[".toList (by decide) x h
  · rcases mem_joinComma _ x h with h2 | ⟨l, hl, hxl⟩
    · subst h2; decide
    · rcases List.mem_map.mp hl with ⟨a, _, rfl⟩
      exact encodeStr_ascii a x hxl
  · subst h; decide
  · subst h; decide

theorem utf8Size_eq_length (s : List Char) (h : ∀ x ∈ s, x.toNat < 128) :
    utf8Size s = s.length := by
  induction s with
  | nil => rfl
  | cons c cs ih =>
    have hc : c.toNat < 128 := h c (by simp)
    have h1 : utf8Len c = 1 := by unfold utf8Len; rw [if_pos hc]
    have h2 := ih (fun x hx => h x (by simp [hx]))
    simp only [utf8Size, List.map_cons, List.sum_cons, List.length_cons] at *
    omega

/-- C3: minimega._send encodes the command and argument tuple as one
compact JSON object and writes it with a single send call; because
json.dumps escapes every non-ASCII character (ensure_ascii), the character
count compared by the code equals the UTF-8 byte count of the encoded
message, so the write fails with Error('failed to write message to
minimega') exactly when the socket wrote fewer bytes than the encoded
length, and a send that reports all bytes written succeeds for every
command text, non-ASCII included. -/
theorem send_length_check (cmd : List Char) (args : List (List Char)) (w : Nat)
    (h : w ≤ utf8Size (dumps cmd args)) :
    (sendCheck cmd args w = Except.error (PyErr.mmError (Json.str failWriteMsg))
       ↔ w < utf8Size (dumps cmd args))
    ∧ sendCheck cmd args (utf8Size (dumps cmd args)) = Except.ok () := by
  have hlen : utf8Size (dumps cmd args) = (dumps cmd args).length :=
    utf8Size_eq_length _ (dumps_ascii cmd args)
  have hiff : sendCheck cmd args w = Except.error (PyErr.mmError (Json.str failWriteMsg))
      ↔ (dumps cmd args).length ≠ w := by
    unfold sendCheck
    split
    · rename_i hcond; simp [hcond]
    · rename_i hcond; simp [hcond]
  constructor
  · rw [hiff, hlen]
    rw [hlen] at h
    omega
  · unfold sendCheck
    rw [hlen, if_neg (by omega)]

/-- C3 witness: a command consisting of the non-ASCII character U+00E9. -/
theorem send_length_check_witness :
    (sendCheck [Char.ofNat 233] [] 0 = Except.error (PyErr.mmError (Json.str failWriteMsg))
       ↔ 0 < utf8Size (dumps [Char.ofNat 233] []))
    ∧ sendCheck [Char.ofNat 233] [] (utf8Size (dumps [Char.ofNat 233] [])) = Except.ok () :=
  send_length_check [Char.ofNat 233] [] 0 (Nat.zero_le _)

theorem receiveLoop_pos (parse : List Char → Option Json) :
    ∀ (cs : List (List Char)) (pre msg : List Char) (r : Json),
      receiveLoop parse cs pre = (msg, some r) → pre.length < msg.length := by
  intro cs
  induction cs with
  | nil =>
    intro pre msg r h
    simp [receiveLoop] at h
  | cons c rest ih =>
    intro pre msg r h
    by_cases hc : c.isEmpty
    · simp [receiveLoop, hc] at h
    · rw [show receiveLoop parse (c :: rest) pre =
          (match parse (pre ++ c) with
           | some v => (pre ++ c, some v)
           | none => receiveLoop parse rest (pre ++ c)) from by
        simp [receiveLoop, hc]] at h
      have hclen : 0 < c.length := by
        cases c
        · simp at hc
        · simp
      cases hp : parse (pre ++ c) with
      | some v =>
        rw [hp] at h
        have : msg = pre ++ c := by
          have := congrArg Prod.fst h
          simpa using this.symm
        subst this
        simp [List.length_append]
        omega
      | none =>
        rw [hp] at h
        have := ih (pre ++ c) msg r h
        have hle : pre.length ≤ (pre ++ c).length := by simp [List.length_append]
        omega

/-- C4: when the receive loop of minimega._send has parsed a response
object whose "Error" field is a string, _send raises Error with exactly
that text when the string is nonempty, and returns the "Response" field
unmodified, raising nothing, when it is empty. -/
theorem receive_error_field (parse : List Char → Option Json)
    (chunks : List (List Char)) (msg : List Char) (r : Json) (e : List Char) (v : Json)
    (hloop : receiveLoop parse chunks [] = (msg, some r))
    (herr : subscript r errorKey = Except.ok (Json.str e))
    (hresp : subscript r responseKey = Except.ok v) :
    (e ≠ [] → receive parse chunks = Except.error (PyErr.mmError (Json.str e)))
    ∧ (e = [] → receive parse chunks = Except.ok v) := by
  have hmsg : msg.isEmpty = false := by
    have := receiveLoop_pos parse chunks [] msg r hloop
    cases msg
    · simp at this
    · rfl
  have hrec : receive parse chunks = handleParsed msg (some r) := by
    simp only [receive, hloop]
  rw [hrec]
  unfold handleParsed
  rw [hmsg]
  simp only [Bool.false_eq_true, if_false]
  rw [herr]
  constructor
  · intro he
    show (if truthy (Json.str e) = true then Except.error (PyErr.mmError (Json.str e))
          else subscript r responseKey) = Except.error (PyErr.mmError (Json.str e))
    have ht : truthy (Json.str e) = true := by
      simp [truthy]
      exact he
    rw [if_pos ht]
  · intro he
    subst he
    show (if truthy (Json.str []) = true then Except.error (PyErr.mmError (Json.str []))
          else subscript r responseKey) = Except.ok v
    rw [if_neg (by simp [truthy])]
    exact hresp

/-- The single-chunk frame used by the C4 witness: a response object with
a nonempty "Error" field and an empty "Response". -/
def wFrame : List Char :=
  lbrace :: "\"Error\":\"boom\",\"Response\":\"\"".toList ++ [rbrace]

/-- The JSON value wFrame parses to. -/
def wFrameJson : Json :=
  Json.obj [("Error".toList, Json.str "boom".toList), ("Response".toList, Json.str [])]

/-- C4 witness: a parsed frame carrying Error "boom" makes _send raise
Error("boom"). -/
theorem receive_error_field_witness :
    ("boom".toList ≠ ([] : List Char) →
        receive loads [wFrame] = Except.error (PyErr.mmError (Json.str "boom".toList)))
    ∧ ("boom".toList = ([] : List Char) → receive loads [wFrame] = Except.ok (Json.str [])) :=
  receive_error_field loads [wFrame] wFrame wFrameJson "boom".toList (Json.str [])
    (by rfl) (by rfl) (by rfl)

theorem land_two_pow_ne (t k : Nat) : (t &&& 2 ^ k ≠ 0) ↔ t.testBit k = true := by
  rw [Nat.and_two_pow]
  cases h : t.testBit k <;> simp [h, pow_ne_zero]

theorem masked_bit (t k : Nat) (h0 : 0 < k) (hk : k < 32) :
    ((t &&& 0xfffffffe) &&& 2 ^ k ≠ 0) ↔ t.testBit k = true := by
  rw [land_two_pow_ne, Nat.testBit_land]
  have hm : (0xfffffffe : Nat).testBit k = true := by
    interval_cases k <;> decide
  rw [hm, Bool.and_true]

theorem masked_bit0 (t : Nat) : ¬((t &&& 0xfffffffe) &&& 1 ≠ 0) := by
  have h1 : (1 : Nat) = 2 ^ 0 := rfl
  rw [h1, land_two_pow_ne, Nat.testBit_land]
  simp

/-- C5 counterexample: the bitmask 6 has both the literal bit and the
subcommand bit set, yet parseCmdType returns the first declared kind
instead of failing. -/
theorem parseCmdType_multiple_bits_counterexample :
    parseCmdType 6 = Except.ok "literalItem" := rfl

/-- C5 (amended): parseCmdType ignores the optional bit and returns the
first kind in the declared order literal, subcommand, string, choice,
list whose bit is set; it fails with the ValueError that signals an
unknown argument type exactly when none of the five kind bits is set —
so a mask with several kind bits set returns the first matching kind
rather than failing. -/
theorem parseCmdType_first_match (t : Nat) :
    parseCmdType t =
      if t.testBit 1 then Except.ok "literalItem"
      else if t.testBit 2 then Except.ok "commandItem"
      else if t.testBit 3 then Except.ok "stringItem"
      else if t.testBit 4 then Except.ok "choiceItem"
      else if t.testBit 5 then Except.ok "listItem"
      else Except.error PyErr.valueError := by
  have e1 : ((t &&& 0xfffffffe) &&& 2 ≠ 0) ↔ t.testBit 1 = true := by
    have : (2 : Nat) = 2 ^ 1 := rfl
    rw [this]
    exact masked_bit t 1 (by omega) (by omega)
  have e2 : ((t &&& 0xfffffffe) &&& 4 ≠ 0) ↔ t.testBit 2 = true := by
    have : (4 : Nat) = 2 ^ 2 := rfl
    rw [this]
    exact masked_bit t 2 (by omega) (by omega)
  have e3 : ((t &&& 0xfffffffe) &&& 8 ≠ 0) ↔ t.testBit 3 = true := by
    have : (8 : Nat) = 2 ^ 3 := rfl
    rw [this]
    exact masked_bit t 3 (by omega) (by omega)
  have e4 : ((t &&& 0xfffffffe) &&& 16 ≠ 0) ↔ t.testBit 4 = true := by
    have : (16 : Nat) = 2 ^ 4 := rfl
    rw [this]
    exact masked_bit t 4 (by omega) (by omega)
  have e5 : ((t &&& 0xfffffffe) &&& 32 ≠ 0) ↔ t.testBit 5 = true := by
    have : (32 : Nat) = 2 ^ 5 := rfl
    rw [this]
    exact masked_bit t 5 (by omega) (by omega)
  simp only [parseCmdType, CMD_TYPES, firstType]
  rw [if_neg (masked_bit0 t)]
  simp only [e1, e2, e3, e4, e5]
  by_cases b1 : t.testBit 1 = true
  · simp [b1]
  by_cases b2 : t.testBit 2 = true
  · simp [b1, b2]
  by_cases b3 : t.testBit 3 = true
  · simp [b1, b2, b3]
  by_cases b4 : t.testBit 4 = true
  · simp [b1, b2, b3, b4]
  by_cases b5 : t.testBit 5 = true
  · simp [b1, b2, b3, b4, b5]
  simp [b1, b2, b3, b4, b5]

/-- The "vm info" descriptor of spec Scenario A. -/
def dVmInfo : Cmd := { spfx := "vm info".toList, parsed_patterns := [], candidates := none }

/-- The "vm launch" descriptor of spec Scenario A. -/
def dVmLaunch : Cmd := { spfx := "vm launch".toList, parsed_patterns := [], candidates := none }

/-- The "vm kill" descriptor of spec Scenario A. -/
def dVmKill : Cmd := { spfx := "vm kill".toList, parsed_patterns := [], candidates := none }

theorem buildCommand_merges_first_token (t u w : List Char) (c1 c2 : Cmd)
    (h1 : pySplit c1.spfx = [t, u]) (h2 : pySplit c2.spfx = [t, w])
    (hp1 : c1.parsed_patterns = []) (hp2 : c2.parsed_patterns = [])
    (huw : sanitize u ≠ sanitize w) :
    (buildCommand [] [t, u] c1).bind (fun ctx => buildCommand ctx [t, w] c2) =
      Except.ok [(sanitize t, Node.mk none (some
        [(sanitize u, Node.mk (some { c1 with candidates := some [] }) none),
         (sanitize w, Node.mk (some { c2 with candidates := some [] }) none)]))] := by
  obtain ⟨s1, p1, cd1⟩ := c1
  obtain ⟨s2, p2, cd2⟩ := c2
  simp only [Cmd.mk.injEq] at hp1 hp2
  simp only at h1 h2
  subst hp1
  subst hp2
  have step1 : buildCommand [] [t, u] ⟨s1, [], cd1⟩ =
      Except.ok [(sanitize t, Node.mk none (some
        [(sanitize u, Node.mk (some ⟨s1, [], some []⟩) none)]))] := by
    simp [buildCommand, lookupAssoc, setAssoc, h1, List.mapM.loop, pure, Except.pure]
  rw [step1]
  simp only [Except.bind]
  simp [buildCommand, lookupAssoc, setAssoc, h2, Node.subsOf, Node.cmdOf, huw,
    Ne.symm huw, List.mapM.loop, pure, Except.pure]

/-- C6: the three descriptors "vm info", "vm launch", "vm kill", built in
that order, produce a tree with exactly one interior node keyed "vm"
holding exactly the three leaves "info", "launch", "kill", each storing
its originating descriptor; and in general two descriptors sharing their
first prefix token are merged under one interior node, the second
descriptor never overwriting the first. -/
theorem buildTree_vm_merge :
    renderCmds [dVmInfo, dVmLaunch, dVmKill] =
      Except.ok [("vm".toList, Node.mk none (some
        [("info".toList, Node.mk (some { dVmInfo with candidates := some [] }) none),
         ("launch".toList, Node.mk (some { dVmLaunch with candidates := some [] }) none),
         ("kill".toList, Node.mk (some { dVmKill with candidates := some [] }) none)]))]
    ∧ ∀ (t u w : List Char) (c1 c2 : Cmd),
        pySplit c1.spfx = [t, u] → pySplit c2.spfx = [t, w] →
        c1.parsed_patterns = [] → c2.parsed_patterns = [] →
        sanitize u ≠ sanitize w →
        (buildCommand [] [t, u] c1).bind (fun ctx => buildCommand ctx [t, w] c2) =
          Except.ok [(sanitize t, Node.mk none (some
            [(sanitize u, Node.mk (some { c1 with candidates := some [] }) none),
             (sanitize w, Node.mk (some { c2 with candidates := some [] }) none)]))] :=
  ⟨rfl, buildCommand_merges_first_token⟩

/-- C6 witness: the general merging clause instantiated at the concrete
descriptors "vm info" and "vm launch". -/
theorem buildTree_vm_merge_witness :
    (buildCommand [] ["vm".toList, "info".toList] dVmInfo).bind
        (fun ctx => buildCommand ctx ["vm".toList, "launch".toList] dVmLaunch) =
      Except.ok [("vm".toList, Node.mk none (some
        [("info".toList, Node.mk (some { dVmInfo with candidates := some [] }) none),
         ("launch".toList, Node.mk (some { dVmLaunch with candidates := some [] }) none)]))] :=
  buildTree_vm_merge.2 "vm".toList "info".toList "launch".toList dVmInfo dVmLaunch
    rfl rfl rfl rfl (by decide)

/-- The descriptor with the one-word prefix "vm", used twice to exhibit a
full prefix collision. -/
def dupVm : Cmd := { spfx := "vm".toList, parsed_patterns := [], candidates := none }

/-- C7 counterexample: feeding the same descriptor prefix "vm" twice makes
the build fail with the generic Python IndexError raised by subs[0] on an
empty list — there is no DuplicateCommand error anywhere in the
generator. -/
theorem duplicate_descriptor_counterexample :
    renderCmds [dupVm, dupVm] = Except.error PyErr.indexError := rfl

/-- C7 (amended): building a descriptor whose entire sanitized prefix path
is already present in the tree fails with an uncaught IndexError (the
`subs[0]` subscript of an exhausted suffix), not with a dedicated
DuplicateCommand error; the existing tree is not overwritten because the
exception aborts the build. -/
theorem buildCommand_existing_path_indexError (subs : List (List Char)) :
    ∀ (ctx : List (List Char × Node)) (cmd : Cmd),
      hasPath ctx subs = true → buildCommand ctx subs cmd = Except.error PyErr.indexError := by
  induction subs with
  | nil =>
    intro ctx cmd h
    simp [hasPath] at h
  | cons s0 srest ih =>
    intro ctx cmd h
    simp only [hasPath] at h
    cases hl : lookupAssoc ctx (sanitize s0) with
    | none => rw [hl] at h; simp at h
    | some node =>
      rw [hl] at h
      cases srest with
      | nil =>
        show buildCommand ctx [s0] cmd = Except.error PyErr.indexError
        simp only [buildCommand, hl]
      | cons a b =>
        have hsub : hasPath (node.subsOf.getD []) (a :: b) = true := by
          simpa using h
        have hinner := ih (node.subsOf.getD []) cmd hsub
        show buildCommand ctx (s0 :: a :: b) cmd = Except.error PyErr.indexError
        rw [buildCommand.eq_def]
        simp only [hl, hinner]

/-- C7 witness: after "vm" has been built as a leaf, building any
descriptor with the same sanitized prefix hits the IndexError. -/
theorem buildCommand_existing_path_indexError_witness :
    buildCommand [("vm".toList, Node.mk (some { dupVm with candidates := some [] }) none)]
      ["vm".toList] dupVm = Except.error PyErr.indexError :=
  buildCommand_existing_path_indexError ["vm".toList]
    [("vm".toList, Node.mk (some { dupVm with candidates := some [] }) none)] dupVm rfl

/-- A descriptor with the one-word prefix "x" and one pattern of two
slots: the prefix slot (bitmask 2, a literal) and one argument slot
(bitmask 9, an optional string). -/
def dMut : Cmd :=
  { spfx := "x".toList,
    parsed_patterns := [[{ type := TypeField.bits 2, optional := none },
                         { type := TypeField.bits 9, optional := none }]],
    candidates := none }

/-- The state of dMut after buildCommand has stored it as a leaf: the
candidates entry has been added, and the argument slot beyond the prefix
has had its integer type bitmask overwritten with the kind name and an
optional flag added, both inside parsed_patterns and inside candidates. -/
def dMutAfter : Cmd :=
  { spfx := "x".toList,
    parsed_patterns := [[{ type := TypeField.bits 2, optional := none },
                         { type := TypeField.name "stringItem", optional := some true }]],
    candidates := some [[{ type := TypeField.name "stringItem", optional := some true }]] }

/-- C8 counterexample: storing the descriptor dMut as a leaf leaves it
changed — its parsed_patterns slot beyond the shared prefix no longer
carries the integer bitmask, and a candidates field has been added — so
descriptors are not left unchanged by buildCommand and parseArgs. -/
theorem descriptor_mutation_counterexample :
    buildCommand [] ["x".toList] dMut = Except.ok [("x".toList, Node.mk (some dMutAfter) none)]
    ∧ dMutAfter.parsed_patterns ≠ dMut.parsed_patterns
    ∧ dMutAfter.candidates ≠ dMut.candidates :=
  ⟨rfl, by decide, by decide⟩

/-- C8 (amended): parseArgs and buildCommand do modify the descriptor:
each classified slot's 'type' entry is overwritten in place with the kind
name (no longer the integer bitmask) and an 'optional' entry is added, and
leaf insertion adds the derived 'candidates' entry to the descriptor
itself, whose pattern tails share the rewritten slots. -/
theorem parseArgs_buildCommand_mutation
    (n : Nat) (k : String) (o : Option Bool) (c : Cmd) (t : List Char)
    (cands : List (List ArgSlot))
    (hk : parseCmdType n = Except.ok k)
    (hc : (c.parsed_patterns.map (fun p => p.drop (pySplit c.spfx).length)).mapM parseArgs
            = Except.ok cands) :
    (parseArg { type := TypeField.bits n, optional := o }
        = Except.ok { type := TypeField.name k, optional := some (n &&& 1 ≠ 0 : Bool) }
      ∧ TypeField.name k ≠ TypeField.bits n)
    ∧ buildCommand [] [t] c = Except.ok [(sanitize t,
        Node.mk (some
          { spfx := c.spfx,
            parsed_patterns := (c.parsed_patterns.zip cands).map
              (fun pc => pc.1.take (pySplit c.spfx).length ++ pc.2),
            candidates := some cands }) none)] := by
  refine ⟨⟨?_, by simp⟩, ?_⟩
  · simp [parseArg, hk]
  · simp only [buildCommand, lookupAssoc, List.isEmpty_nil, if_true, hc, setAssoc]

/-- C8 witness: the amended mutation statement at the concrete descriptor
dMut whose argument slot has bitmask 9 (optional string). -/
theorem parseArgs_buildCommand_mutation_witness :
    (parseArg { type := TypeField.bits 9, optional := none }
        = Except.ok { type := TypeField.name "stringItem", optional := some ((9 : Nat) &&& 1 ≠ 0 : Bool) }
      ∧ TypeField.name "stringItem" ≠ TypeField.bits 9)
    ∧ buildCommand [] ["x".toList] dMut = Except.ok [(sanitize "x".toList,
        Node.mk (some
          { spfx := dMut.spfx,
            parsed_patterns := (dMut.parsed_patterns.zip
                [[{ type := TypeField.name "stringItem", optional := some true }]]).map
              (fun pc => pc.1.take (pySplit dMut.spfx).length ++ pc.2),
            candidates := some [[{ type := TypeField.name "stringItem", optional := some true }]] })
          none)] :=
  parseArgs_buildCommand_mutation 9 "stringItem" none dMut "x".toList
    [[{ type := TypeField.name "stringItem", optional := some true }]] rfl rfl

theorem fsList_succ (oracle : List Char → Except PyErr (List Char)) (fuel : Nat)
    (cwd : List Char) :
    fsList oracle (fuel + 1) cwd =
      match oracle cwd with
      | Except.error e => ([], some e)
      | Except.ok text => (splitlines text).foldl (fsStep oracle fuel cwd) ([], none) := rfl

theorem fsStep_absorb (oracle : List Char → Except PyErr (List Char)) (fuel : Nat)
    (cwd : List Char) (acc : List (List Char × FSEntry)) (e : PyErr) :
    ∀ lines : List (List Char),
      lines.foldl (fsStep oracle fuel cwd) (acc, some e) = (acc, some e) := by
  intro lines
  induction lines with
  | nil => rfl
  | cons l ls ih =>
    rw [List.foldl_cons]
    rw [show fsStep oracle fuel cwd (acc, some e) l = (acc, some e) from rfl]
    exact ih

/-- The oracle of a daemon whose root listing holds the subdirectory line
"<dir> sub   0" and the file line "  file1   42", every other directory
being empty. -/
def oracleE : List Char → Except PyErr (List Char) :=
  fun cwd => if cwd = rootPath then Except.ok "<dir> sub   0\n  file1   42".toList
             else Except.ok []

/-- The oracle of a daemon whose root listing is the single line
"file1   42" with no leading whitespace. -/
def oracleBad : List Char → Except PyErr (List Char) :=
  fun cwd => if cwd = rootPath then Except.ok "file1   42".toList else Except.ok []

/-- The oracle of a daemon whose root listing has one good line followed
by one bad line. -/
def oraclePart : List Char → Except PyErr (List Char) :=
  fun cwd => if cwd = rootPath then Except.ok "  keep   7\nfile2 3".toList else Except.ok []

/-- C9 counterexample: the line "file1   42" with no leading whitespace
does not match FILE_RE — its first alternative needs the "<dir> " marker
and its second needs at least one whitespace character — so the listing
fails with the parse Error instead of producing the integer entry 42; and
a bad line after a good one leaves the entries parsed before it in the
store, so the failed listing is partially populated. -/
theorem fileListing_counterexample :
    fsList oracleBad 2 rootPath
      = ([], some (PyErr.mmError (Json.str (parseFailMsg ++ rootPath))))
    ∧ fsList oraclePart 2 rootPath
      = ([("keep".toList, FSEntry.size 7)],
         some (PyErr.mmError (Json.str (parseFailMsg ++ rootPath)))) :=
  ⟨rfl, rfl⟩

theorem foldl_bad_line
    (oracle : List Char → Except PyErr (List Char)) (fuel : Nat) (cwd : List Char)
    (acc : List (List Char × FSEntry)) (line : List Char) (rest : List (List Char))
    (hbad : fileReMatch line = none) :
    (line :: rest).foldl (fsStep oracle fuel cwd) (acc, none)
      = (acc, some (PyErr.mmError (Json.str (parseFailMsg ++ cwd)))) := by
  rw [List.foldl_cons]
  rw [show fsStep oracle fuel cwd (acc, none) line
        = (acc, some (PyErr.mmError (Json.str (parseFailMsg ++ cwd)))) from by
    simp [fsStep, hbad]]
  exact fsStep_absorb oracle fuel cwd acc _ rest

/-- C9 (amended): a listing line that begins with the "<dir> " marker
produces a nested FileStore entry and a line that begins with whitespace
followed by a name and size produces an integer entry; any line matching
neither — including a file line with no leading whitespace — aborts the
listing at that line with Error("Failure parsing file listing in " +
directory), leaving the entries of earlier lines in the store and
processing no later line. -/
theorem fileListing_amended
    (oracle : List Char → Except PyErr (List Char)) (fuel : Nat) (cwd : List Char)
    (acc : List (List Char × FSEntry)) (line : List Char) (rest : List (List Char))
    (hbad : fileReMatch line = none) :
    ((line :: rest).foldl (fsStep oracle fuel cwd) (acc, none)
        = (acc, some (PyErr.mmError (Json.str (parseFailMsg ++ cwd)))))
    ∧ fsList oracleE 2 rootPath
        = ([("sub".toList, FSEntry.dir []), ("file1".toList, FSEntry.size 42)], none) :=
  ⟨foldl_bad_line oracle fuel cwd acc line rest hbad, rfl⟩

/-- C9 witness: the amended statement at a concrete bad line "bad" with a
nonempty accumulated store and an unprocessed following line. -/
theorem fileListing_amended_witness :
    (("bad".toList :: ["x".toList]).foldl (fsStep oracleE 1 rootPath)
        ([("a".toList, FSEntry.size 1)], none)
      = ([("a".toList, FSEntry.size 1)],
         some (PyErr.mmError (Json.str (parseFailMsg ++ rootPath)))))
    ∧ fsList oracleE 2 rootPath
        = ([("sub".toList, FSEntry.dir []), ("file1".toList, FSEntry.size 42)], none) :=
  fileListing_amended oracleE 1 rootPath [("a".toList, FSEntry.size 1)]
    "bad".toList ["x".toList] rfl

/-- The oracle of a daemon whose root listing is the single file line
"  file1   42". -/
def oracleC10 : List Char → Except PyErr (List Char) :=
  fun cwd => if cwd = rootPath then Except.ok "  file1   42".toList else Except.ok []

/-- C10: constructing the client runs one file-list exchange for the root
directory before returning: a daemon error on that exchange fails the
construction with the same error, a malformed first listing line fails it
with the listing parse Error, and a well-formed listing leaves the files
mirror populated on the fresh client. -/
theorem connect_lists_root
    (oracle : List Char → Except PyErr (List Char)) (fuel : Nat) (e : PyErr)
    (text line : List Char) (rest : List (List Char)) :
    (oracle rootPath = Except.error e → mmInit oracle (fuel + 1) = Except.error e)
    ∧ (oracle rootPath = Except.ok text → splitlines text = line :: rest →
        fileReMatch line = none →
        mmInit oracle (fuel + 1)
          = Except.error (PyErr.mmError (Json.str (parseFailMsg ++ rootPath))))
    ∧ mmInit oracleC10 1 = Except.ok [("file1".toList, FSEntry.size 42)] := by
  refine ⟨?_, ?_, rfl⟩
  · intro h
    unfold mmInit
    rw [fsList_succ, h]
  · intro htext hlines hbad
    unfold mmInit
    rw [fsList_succ, htext]
    have habort := foldl_bad_line oracle fuel rootPath [] line rest hbad
    simp only [hlines, habort]

/-- C10 witness: a daemon that raises on the root listing makes the
construction itself fail with that error. -/
theorem connect_lists_root_witness :
    mmInit (fun _ => Except.error PyErr.typeError) 1 = Except.error PyErr.typeError :=
  (connect_lists_root (fun _ => Except.error PyErr.typeError) 0 PyErr.typeError
    [] [] []).1 rfl
